import Mathlib

/-!
Shallow embedding of the deskflow-api Cloudflare Worker (final snapshot of
`index.ts`) and proofs about its caching, vote-deduplication and
statistics-aggregation logic.

Strings from the source are modelled as `List Char` (`Str`); JS objects
`Record<string, number>` as insertion-ordered association lists; the KV and
Durable-Object stores as explicit state passed through the functions; and
`async` functions that can `throw` as `Except`-valued functions.

Where the earlier snapshot of the worker (the one with the slow-KV fallback
for the version cache) is needed, it is embedded separately as `version_v2`;
everything without the `_v2` suffix is translated from the final snapshot.
-/

/-- Strings of the worker, modelled as lists of characters. -/
abbrev Str := List Char

/-- Turn a Lean string literal into the `Str` representation. -/
def str (s : String) : Str := s.data

/-- JS `String.prototype.includes`: `containsSeq needle hay` is true iff
`needle` occurs contiguously inside `hay`. -/
def containsSeq (needle : Str) : Str → Bool
  | [] => needle.isEmpty
  | c :: rest => needle.isPrefixOf (c :: rest) || containsSeq needle rest

/-- `getOsFamily` from the source: case-insensitive substring classification
of the raw OS token, with `null`/empty input giving `null`. -/
def getOsFamily (os : Option Str) : Option Str :=
  match os with
  | none => none
  | some s =>
    let lower := s.map Char.toLower
    if lower.isEmpty then none
    else if containsSeq (str "windows") lower then some (str "Windows")
    else if containsSeq (str "macos") lower then some (str "macOS")
    else if containsSeq (str "linux") lower || containsSeq (str "flatpak") lower then
      some (str "Linux")
    else if containsSeq (str "bsd") lower then some (str "BSD")
    else some (str "Other")

/-- A record in the primary KV store (`env.APP_VERSION`, key "latest"):
the version string plus the `fetchedAt` metadata field, which the storage
layer does not guarantee to be present. Timestamps are UTC milliseconds. -/
structure KVRecord where
  value : Str
  fetchedAt : Option Int
deriving DecidableEq

/-- The two cache tiers touched by the version endpoint: the primary
Workers KV record and the slow Durable-Object store's "version" key. -/
structure CacheState where
  primary : Option KVRecord
  secondary : Option Str
deriving DecidableEq

/-- An HTTP response: status code and plain-text body. -/
structure HttpResponse where
  status : Nat
  body : Str
deriving DecidableEq

/-- Errors the version endpoint can throw. -/
inductive VersionError where
  | metadataMissing
  | tokenMissing
  | putFailed
deriving DecidableEq

/-- `cacheAgeSeconds` from the final snapshot: 5 minutes. -/
def cacheAgeSeconds : Int := 60 * 5

/-- `cacheAgeSeconds` from the earlier snapshot with the slow-KV fallback:
2 minutes. -/
def cacheAgeSeconds_v2 : Int := 60 * 2

/-- The cached-version check at the top of `version`: `getWithMetadata`
followed by the `if (cachedVersion)` truthiness test, the
`if (!fetchedAt) throw` metadata guard, and the age comparison
`(Date.now() - fetchedAtDate.getTime()) / 1000 < cacheAgeSeconds`
(stated equivalently in milliseconds). Returns the value served on a
valid hit, `none` on a miss or stale record. -/
def cacheHit (ttlSeconds : Int) (st : CacheState) (nowMs : Int) :
    Except VersionError (Option Str) :=
  match st.primary with
  | none => .ok none
  | some rec =>
    if rec.value.isEmpty then .ok none
    else
      match rec.fetchedAt with
      | none => .error .metadataMissing
      | some t => if nowMs - t < ttlSeconds * 1000 then .ok (some rec.value) else .ok none

/-- `versionRaw.replace(/^v/, '')`: strip exactly one leading lowercase 'v'. -/
def stripV (s : Str) : Str :=
  match s with
  | [] => []
  | c :: rest => if c = 'v' then rest else c :: rest

/-- Outcome of consuming the upstream release list. -/
inductive ResolveResult where
  | noReleases
  | onlyContinuous
  | found (v : Str)
deriving DecidableEq

/-- The release-consumption logic of `version`: the empty-list check, the
filter dropping the "continuous" sentinel, and the `v`-prefix
normalization of the first remaining tag. -/
def resolveLatest (tags : List Str) : ResolveResult :=
  match tags with
  | [] => .noReleases
  | _ :: _ =>
    match tags.filter (fun t => decide (t ≠ str "continuous")) with
    | [] => .onlyContinuous
    | t :: _ => .found (stripV t)

/-- `version` from the final snapshot (after the `?fake=` shortcut): consult
the primary KV record; on a valid hit serve it, otherwise require the
GitHub token, consume the release list `tags`, and on success write the
new record back to the primary KV (`putFails` models the KV put throwing;
the final snapshot has no handler for it, so it propagates). The slow
store is never consulted. -/
def version (st : CacheState) (nowMs : Int) (hasToken : Bool) (tags : List Str)
    (putFails : Bool) : Except VersionError (HttpResponse × CacheState) :=
  match cacheHit cacheAgeSeconds st nowMs with
  | .error e => .error e
  | .ok (some v) => .ok (⟨200, v⟩, st)
  | .ok none =>
    if hasToken = false then .error .tokenMissing
    else
      match resolveLatest tags with
      | .noReleases => .ok (⟨404, str "No releases found"⟩, st)
      | .onlyContinuous => .ok (⟨404, str "No releases found (except continuous)"⟩, st)
      | .found v =>
        if putFails then .error .putFailed
        else .ok (⟨200, v⟩, { st with primary := some ⟨v, some nowMs⟩ })

/-- The GitHub-fetch-and-store tail of the earlier snapshot's `version`:
resolve the release list, then try the primary KV put, falling back on
failure to writing the slow store (the `catch` block). -/
def versionFetch_v2 (st : CacheState) (nowMs : Int) (tags : List Str)
    (putFails : Bool) : Except VersionError (HttpResponse × CacheState) :=
  match resolveLatest tags with
  | .noReleases => .ok (⟨404, str "No releases found"⟩, st)
  | .onlyContinuous => .ok (⟨404, str "No releases found (except continuous)"⟩, st)
  | .found v =>
    if putFails then .ok (⟨200, v⟩, { st with secondary := some v })
    else .ok (⟨200, v⟩, { st with primary := some ⟨v, some nowMs⟩ })

/-- `version` from the earlier snapshot: same shape as the final one, but
with the 2-minute TTL, no token requirement, and a read of the slow store
before going to the release list. `if (slowCachedVersion)` is a JS
truthiness test, so an absent or empty stored value falls through to the
external fetch. -/
def version_v2 (st : CacheState) (nowMs : Int) (tags : List Str)
    (putFails : Bool) : Except VersionError (HttpResponse × CacheState) :=
  match cacheHit cacheAgeSeconds_v2 st nowMs with
  | .error e => .error e
  | .ok (some v) => .ok (⟨200, v⟩, st)
  | .ok none =>
    match st.secondary with
    | some s =>
      if s.isEmpty then versionFetch_v2 st nowMs tags putFails
      else .ok (⟨200, s⟩, st)
    | none => versionFetch_v2 st nowMs tags putFails

/-- The body of the top-level 500 response, carrying the request id. -/
def serverErrorMessage (rid : Str) : Str :=
  str "Server error. Please report this issue with the request ID " ++ rid ++
    str " at https://github.com/deskflow/deskflow-api/issues"

/-- The top-level `fetch` handler's error wrapper: a thrown error becomes a
500 whose body names the `cf-ray` request id (or "unknown"). -/
def handleFetch (cfRay : Option Str) (r : Except VersionError HttpResponse) :
    HttpResponse :=
  match r with
  | .ok resp => resp
  | .error _ => ⟨500, serverErrorMessage (cfRay.getD (str "unknown"))⟩

/-- JS regex `.` (no `s` flag): any character except a line terminator. -/
def isDot (c : Char) : Bool := !(c = '\n' || c = '\r')

/-- Index of the last ')' usable as the closing literal of `(.+)\)`: the
greatest position `j ≥ 1` in `t` holding ')'. `t` is already restricted
to dot-matching characters by the caller. -/
def lastCloseParen (t : Str) : Option Nat :=
  ((t.enum.filter (fun p => decide (p.2 = ')') && decide (1 ≤ p.1))).getLast?).map
    Prod.fst

/-- Greedy match of `(.+)\)` against `r` (nothing anchored after it):
the longest non-empty run of dot characters followed by ')'. -/
def matchG2 (r : Str) : Option Str :=
  match lastCloseParen (r.takeWhile isDot) with
  | some j => some ((r.takeWhile isDot).take j)
  | none => none

/-- Backtracking search for group 1 of `(.+) \((.+)\)` against `s`, trying
candidate lengths `k+1` downwards (greedy `.+`). -/
def tryG1 (s : Str) : Nat → Option (Str × Str)
  | 0 => none
  | k + 1 =>
    if (s.take (k + 1)).all isDot && (str " (").isPrefixOf (s.drop (k + 1)) then
      match matchG2 (s.drop (k + 1 + 2)) with
      | some g2 => some (s.take (k + 1), g2)
      | none => tryG1 s k
    else tryG1 s k

/-- Match of `(.+) \((.+)\)` at the start of `s`. -/
def matchTail (s : Str) : Option (Str × Str) := tryG1 s s.length

/-- JS `/Deskflow\/(.+) \((.+)\)/.exec(ua)`: the two capture groups of the
leftmost match of the structured User-Agent pattern. -/
def rfc9110Exec : Str → Option (Str × Str)
  | [] => none
  | c :: rest =>
    if (str "Deskflow/").isPrefixOf (c :: rest) then
      match matchTail ((c :: rest).drop 9) with
      | some g => some g
      | none => rfc9110Exec rest
    else rfc9110Exec rest

/-- Greedy match of the trailing `(.+)` of the legacy pattern: the longest
non-empty run of dot characters at the start of `r`. -/
def matchAfterOn (r : Str) : Option Str :=
  match r.takeWhile isDot with
  | [] => none
  | c :: cs => some (c :: cs)

/-- Backtracking search for the middle `.+` of `Deskflow .+ on (.+)`,
trying candidate lengths downwards (greedy). -/
def tryMid (s : Str) : Nat → Option Str
  | 0 => none
  | k + 1 =>
    if (s.take (k + 1)).all isDot && (str " on ").isPrefixOf (s.drop (k + 1)) then
      match matchAfterOn (s.drop (k + 1 + 4)) with
      | some g => some g
      | none => tryMid s k
    else tryMid s k

/-- Match of `.+ on (.+)` at the start of `s`. -/
def matchLegacyTail (s : Str) : Option Str := tryMid s s.length

/-- JS `/Deskflow .+ on (.+)/.exec(ua)?.[1]`: the capture group of the
leftmost match of the legacy User-Agent pattern. -/
def legacyExec : Str → Option Str
  | [] => none
  | c :: rest =>
    if (str "Deskflow ").isPrefixOf (c :: rest) then
      match matchLegacyTail ((c :: rest).drop 9) with
      | some g => some g
      | none => legacyExec rest
    else legacyExec rest

/-- JS `String.prototype.trim`: drop whitespace from both ends. -/
def trim (s : Str) : Str :=
  ((s.dropWhile Char.isWhitespace).reverse.dropWhile Char.isWhitespace).reverse

/-- The per-request identity extracted by `parseUserAgent`. Field values of
`some []` model empty (hence falsy) JS strings. -/
structure IdentityInfo where
  os : Option Str
  osFamily : Option Str
  appLanguage : Option Str
  appVersion : Option Str
deriving DecidableEq

/-- Errors `parseUserAgent` can throw. -/
inductive ParseError where
  | invalidFormat
deriving DecidableEq

/-- `parseUserAgent` from the final snapshot: `null` when the marker token
"Deskflow" is absent; the structured RFC 9110 branch when its pattern
matches (fields positionally from the `;`-split of group 2, missing
positions null); otherwise the legacy branch, taking the OS from the
trailing "on <os>" fragment and language/version from the two custom
headers. The `.error` branch embeds the
`throw new Error('Invalid RFC 9110 User-Agent format')` guard. -/
def parseUserAgent (ua : Str) (langHeader verHeader : Option Str) :
    Except ParseError (Option IdentityInfo) :=
  if containsSeq (str "Deskflow") ua = false then .ok none
  else if (rfc9110Exec ua).isSome then
    match rfc9110Exec ua with
    | none => .error .invalidFormat
    | some g =>
      let metadata := (List.splitOn ';' g.2).map trim
      .ok (some ⟨metadata[0]?, getOsFamily metadata[1]?, metadata[3]?, metadata[2]?⟩)
  else
    .ok (some ⟨legacyExec ua, getOsFamily (legacyExec ua), langHeader, verHeader⟩)

/-- A JS `Record<string, number>` as an insertion-ordered association list
(updating an existing key keeps its position; a new key is appended). -/
abbrev CountMap := List (Str × Nat)

/-- The monthly stats blob (`type Stats` in the source): absent fields model
absent JSON keys. -/
structure Stats where
  votes : Option Nat
  os : Option CountMap
  osFamily : Option CountMap
  language : Option CountMap
  version : Option CountMap
deriving DecidableEq

/-- The empty stats object returned by `getStats` for an unknown month. -/
def emptyStats : Stats := ⟨none, none, none, none, none⟩

/-- `m[k] = (m[k] ?? 0) + 1` on a JS object: bump the existing key in place
or append a new entry at count 1. -/
def bump : CountMap → Str → CountMap
  | [], k => [(k, 1)]
  | (k', c) :: rest, k =>
    if k' = k then (k', c + 1) :: rest else (k', c) :: bump rest k

/-- `m[k] ?? 0` on a JS object. -/
def lookupCount : CountMap → Str → Nat
  | [], _ => 0
  | (k', c) :: rest, k => if k' = k then c else lookupCount rest k

/-- JS truthiness of a `string | null` value: false exactly for null and
the empty string. -/
def truthy : Option Str → Bool
  | none => false
  | some s => !s.isEmpty

/-- One guarded category update of `updatePopularityContest`:
`if (v) { if (!m) m = {}; m[v] = (m[v] ?? 0) + 1; }`. -/
def bumpField (v : Option Str) (m : Option CountMap) : Option CountMap :=
  match v with
  | none => m
  | some s => if s.isEmpty then m else some (bump (m.getD []) s)

/-- The stats read-modify-write block of `updatePopularityContest`:
`votes` is incremented unconditionally, each of the four categories only
when its field is truthy. -/
def increment (st : Stats) (i : IdentityInfo) : Stats :=
  { votes := some (st.votes.getD 0 + 1)
  , os := bumpField i.os st.os
  , osFamily := bumpField i.osFamily st.osFamily
  , language := bumpField i.appLanguage st.language
  , version := bumpField i.appVersion st.version }

/-- The count stored under `k` in an optional category mapping. -/
def catCount (m : Option CountMap) (k : Str) : Nat := lookupCount (m.getD []) k

/-- The `votes` counter of a stats blob, reading an absent field as 0. -/
def votesOf (st : Stats) : Nat := st.votes.getD 0

/-- One entry of the per-IP vote ledger (`type Votes` in the source). -/
structure Vote where
  isoDateText : Str
  userAgent : Str
deriving DecidableEq

/-- The `VotesByIP` Durable-Object storage: `findVotes` yields `[]` for an
unknown key, so the store is total with `[]` as default. -/
abbrev VoteStore := Str → List Vote

/-- The `SlowKV` stats storage: `getStats` yields the empty object for an
unknown month key, so the store is total with `emptyStats` as default. -/
abbrev StatsStore := Str → Stats

/-- `hasVoted` from the source: some ledger entry has the same verbatim
user agent and the same UTC calendar date (first 10 characters of the
ISO-8601 timestamp text). -/
def hasVoted (data : List Vote) (ua : Str) (nowIso : Str) : Bool :=
  data.any fun v =>
    decide (v.userAgent = ua) && decide (v.isoDateText.take 10 = nowIso.take 10)

/-- The request headers consumed by the vote-and-stats update. -/
structure ReqHeaders where
  userAgent : Option Str
  language : Option Str
  version : Option Str
  ip : Option Str

/-- Errors `updatePopularityContest` can throw (all caught and logged by
`handleRequest`, never surfaced to the HTTP caller). -/
inductive UpdateError where
  | missingUserAgent
  | missingIp
  | parseFailed (e : ParseError)
deriving DecidableEq

/-- `if (!os && !osFamily && !appLanguage && !appVersion)` — negated. -/
def anyTruthy (i : IdentityInfo) : Bool :=
  truthy i.os || truthy i.osFamily || truthy i.appLanguage || truthy i.appVersion

/-- `updatePopularityContest` from the final snapshot, as a state
transformer over the vote ledger and the stats store. `nowIso` is the
request's ISO-8601 timestamp text (`take 10` is the calendar date used
for dedup, `take 7` the month key). The two `ctx.waitUntil` writes are
modelled as having completed. -/
def updatePopularityContest (h : ReqHeaders) (nowIso : Str) (vs : VoteStore)
    (ss : StatsStore) : Except UpdateError (VoteStore × StatsStore) :=
  match h.userAgent with
  | none => .error .missingUserAgent
  | some ua =>
    if ua.isEmpty then .error .missingUserAgent
    else
      match parseUserAgent ua h.language h.version with
      | .error e => .error (.parseFailed e)
      | .ok none => .ok (vs, ss)
      | .ok (some info) =>
        if anyTruthy info = false then .ok (vs, ss)
        else
          match h.ip with
          | none => .error .missingIp
          | some ip =>
            if ip.isEmpty then .error .missingIp
            else if hasVoted (vs ip) ua nowIso then .ok (vs, ss)
            else
              .ok (Function.update vs ip (vs ip ++ [⟨nowIso, ua⟩]),
                Function.update ss (nowIso.take 7)
                  (increment (ss (nowIso.take 7)) info))

/-- Stable insertion of an entry into a count-descending list: the entry
goes before the first strictly-smaller entry (so after all earlier
entries of equal count). -/
def insertDesc (x : Str × Nat) : CountMap → CountMap
  | [] => [x]
  | y :: ys => if y.2 > x.2 then y :: insertDesc x ys else x :: y :: ys

/-- `Object.fromEntries(Object.entries(obj).sort(([, a], [, b]) => b - a))`:
JS `Array.prototype.sort` is specified to be stable, and the unique
stable descending-by-count reordering is computed by insertion sort. -/
def sortByValueDesc : CountMap → CountMap
  | [] => []
  | x :: xs => insertDesc x (sortByValueDesc xs)

/-- `getSortedStats`: the read view of a stats blob with every category
passed through `sortByValueDesc` (an absent category is returned as the
empty object, which is what sorting the default empty object yields). -/
def getSortedStats (s : Stats) : Stats :=
  { votes := s.votes
  , os := some (sortByValueDesc (s.os.getD []))
  , osFamily := some (sortByValueDesc (s.osFamily.getD []))
  , language := some (sortByValueDesc (s.language.getD []))
  , version := some (sortByValueDesc (s.version.getD [])) }

theorem containsSeq_iff (n h : Str) : containsSeq n h = true ↔ n <:+: h := by
  induction h with
  | nil =>
    simp [containsSeq, List.isEmpty_iff]
  | cons c rest ih =>
    simp only [containsSeq, Bool.or_eq_true, List.isPrefixOf_iff_prefix, ih,
      List.infix_cons_iff]

/-- C9: the OS-family classification: null/empty tokens give a null family,
otherwise case-insensitive substring tests are applied with the fixed
precedence windows → macos → linux/flatpak → bsd → Other. -/
theorem claim_C9 (s : Str) :
    getOsFamily none = none ∧
    getOsFamily (some []) = none ∧
    (s ≠ [] → str "windows" <:+: s.map Char.toLower →
      getOsFamily (some s) = some (str "Windows")) ∧
    (s ≠ [] → ¬ str "windows" <:+: s.map Char.toLower →
      str "macos" <:+: s.map Char.toLower →
      getOsFamily (some s) = some (str "macOS")) ∧
    (s ≠ [] → ¬ str "windows" <:+: s.map Char.toLower →
      ¬ str "macos" <:+: s.map Char.toLower →
      (str "linux" <:+: s.map Char.toLower ∨ str "flatpak" <:+: s.map Char.toLower) →
      getOsFamily (some s) = some (str "Linux")) ∧
    (s ≠ [] → ¬ str "windows" <:+: s.map Char.toLower →
      ¬ str "macos" <:+: s.map Char.toLower →
      ¬ str "linux" <:+: s.map Char.toLower → ¬ str "flatpak" <:+: s.map Char.toLower →
      str "bsd" <:+: s.map Char.toLower →
      getOsFamily (some s) = some (str "BSD")) ∧
    (s ≠ [] → ¬ str "windows" <:+: s.map Char.toLower →
      ¬ str "macos" <:+: s.map Char.toLower →
      ¬ str "linux" <:+: s.map Char.toLower → ¬ str "flatpak" <:+: s.map Char.toLower →
      ¬ str "bsd" <:+: s.map Char.toLower →
      getOsFamily (some s) = some (str "Other")) := by
  refine ⟨rfl, rfl, ?_, ?_, ?_, ?_, ?_⟩ <;>
    intro hne <;>
    simp only [getOsFamily, List.isEmpty_iff, List.map_eq_nil_iff, hne, if_false] <;>
    simp only [← containsSeq_iff, Bool.not_eq_true] at * <;>
    intros <;>
    simp_all

/-- Witness for C9 at the concrete token "Windows 11". -/
theorem claim_C9_witness :
    getOsFamily (some (str "Windows 11")) = some (str "Windows") :=
  (claim_C9 (str "Windows 11")).2.2.1 (by decide)
    ((containsSeq_iff _ _).mp (by decide))

theorem cacheHit_secondary_irrel (ttl : Int) (p : Option KVRecord) (s s' : Option Str)
    (n : Int) : cacheHit ttl ⟨p, s⟩ n = cacheHit ttl ⟨p, s'⟩ n := rfl

/-- C4: consumption of the upstream release list: the "continuous" sentinel
is skipped, the first remaining tag is normalized by stripping exactly one
leading 'v', and the two empty outcomes give the two distinct 404 bodies. -/
theorem claim_C4 (tags : List Str) (t : Str) (rest : List Str) (s : Str) :
    resolveLatest [] = .noReleases ∧
    (tags ≠ [] → (∀ u ∈ tags, u = str "continuous") →
      resolveLatest tags = .onlyContinuous) ∧
    (tags.filter (fun u => decide (u ≠ str "continuous")) = t :: rest →
      resolveLatest tags = .found (stripV t)) ∧
    stripV ('v' :: s) = s ∧
    (s.head? ≠ some 'v' → stripV s = s) ∧
    stripV ('v' :: 'v' :: s) = 'v' :: s ∧
    (∀ st nowMs pf, cacheHit cacheAgeSeconds st nowMs = .ok none →
      version st nowMs true [] pf = .ok (⟨404, str "No releases found"⟩, st)) ∧
    (∀ st nowMs pf, cacheHit cacheAgeSeconds st nowMs = .ok none →
      tags ≠ [] → (∀ u ∈ tags, u = str "continuous") →
      version st nowMs true tags pf =
        .ok (⟨404, str "No releases found (except continuous)"⟩, st)) := by
  have hcont : ∀ tg : List Str, tg ≠ [] → (∀ u ∈ tg, u = str "continuous") →
      resolveLatest tg = .onlyContinuous := by
    intro tg hne hall
    have hfil : tg.filter (fun u => decide (u ≠ str "continuous")) = [] := by
      simp only [List.filter_eq_nil_iff]
      intro u hu
      simp [hall u hu]
    match tg, hne with
    | u :: us, _ =>
      simp only [resolveLatest]
      rw [hfil]
  refine ⟨rfl, hcont tags, ?_, by simp [stripV], ?_, by simp [stripV], ?_, ?_⟩
  · intro hfil
    match tags with
    | [] => simp at hfil
    | u :: us =>
      simp only [resolveLatest]
      rw [hfil]
  · intro hh
    match s with
    | [] => rfl
    | c :: cs =>
      have : c ≠ 'v' := by simpa using hh
      simp [stripV, this]
  · intro st nowMs pf hmiss
    simp [version, hmiss, resolveLatest]
  · intro st nowMs pf hmiss hne hall
    simp [version, hmiss, hcont tags hne hall]

/-- Witness for C4: a list with the sentinel and a real tag resolves to the
stripped tag; a list of only the sentinel gives the distinct 404 body. -/
theorem claim_C4_witness :
    resolveLatest [str "continuous", str "v2.0.0"] = .found (str "2.0.0") ∧
    version ⟨none, none⟩ 0 true [str "continuous"] false =
      .ok (⟨404, str "No releases found (except continuous)"⟩, ⟨none, none⟩) := by
  constructor
  · have h := (claim_C4 [str "continuous", str "v2.0.0"] (str "v2.0.0") [] []).2.2.1
      (by decide)
    simpa using h
  · exact (claim_C4 [str "continuous"] [] [] []).2.2.2.2.2.2.2 ⟨none, none⟩ 0 false rfl
      (by decide) (by decide)

/-- C3 counterexample: a record whose value is the empty string is falsy in
`if (cachedVersion)`, so even though the record was fetched at `T = 0` and
the request is at `nowUtc = 0` (well inside the TTL), the code goes
external, serves the resolver's value and overwrites the record — the
claim demanded the cached value be served with no external resolution. -/
theorem claim_C3_cex :
    version ⟨some ⟨[], some 0⟩, none⟩ 0 true [str "v2.0"] false =
      .ok (⟨200, str "2.0"⟩, ⟨some ⟨str "2.0", some 0⟩, none⟩) := rfl

/-- C3 (amended: the record's value must be non-empty; an empty-valued
record is treated as a miss): a fresh record is served with no external
resolution (the result does not depend on the token, the release list or
the put outcome), and a stale record triggers external resolution, whose
result is served and written back. -/
theorem claim_C3 (st : CacheState) (v w : Str) (T nowMs : Int) (tok : Bool)
    (tags : List Str) (pf : Bool)
    (hrec : st.primary = some ⟨v, some T⟩) (hne : v ≠ []) :
    (nowMs - T < cacheAgeSeconds * 1000 →
      version st nowMs tok tags pf = .ok (⟨200, v⟩, st)) ∧
    (cacheAgeSeconds * 1000 ≤ nowMs - T → resolveLatest tags = .found w →
      version st nowMs true tags false =
        .ok (⟨200, w⟩, { st with primary := some ⟨w, some nowMs⟩ })) := by
  have hval : (List.isEmpty v) = false := by
    simpa [List.isEmpty_iff] using hne
  constructor
  · intro hfresh
    simp [version, cacheHit, hrec, hval, hfresh]
  · intro hstale hres
    simp [version, cacheHit, hrec, hval, not_lt.mpr hstale, hres]

/-- Witness for C3: a record fetched at 0 is served at 1 second of age and
refreshed at exactly the 5-minute TTL boundary. -/
theorem claim_C3_witness :
    version ⟨some ⟨str "1.0", some 0⟩, none⟩ 1000 false [] true =
      .ok (⟨200, str "1.0"⟩, ⟨some ⟨str "1.0", some 0⟩, none⟩) ∧
    version ⟨some ⟨str "1.0", some 0⟩, none⟩ 300000 true [str "v1.1"] false =
      .ok (⟨200, str "1.1"⟩, ⟨some ⟨str "1.1", some 300000⟩, none⟩) := by
  constructor
  · exact (claim_C3 ⟨some ⟨str "1.0", some 0⟩, none⟩ (str "1.0") (str "1.1") 0 1000
      false [] true rfl (by decide)).1 (by decide)
  · exact (claim_C3 ⟨some ⟨str "1.0", some 0⟩, none⟩ (str "1.0") (str "1.1") 0 300000
      true [str "v1.1"] false rfl (by decide)).2 (by decide) (by decide)

/-- C7 counterexample: a record with an empty value and missing `fetchedAt`
metadata is skipped by the `if (cachedVersion)` truthiness test before the
metadata guard runs, so the lookup silently resolves externally and
returns 200 — the claim demanded a hard error surfacing as a 500. -/
theorem claim_C7_cex :
    version ⟨some ⟨[], none⟩, none⟩ 0 true [str "v1.0"] false =
      .ok (⟨200, str "1.0"⟩, ⟨some ⟨str "1.0", some 0⟩, none⟩) := rfl

/-- C7 (amended: the cached value must be non-empty): a non-empty record
without its `fetchedAt` metadata makes the lookup throw, never yields a
success, and the top-level handler turns the error into a 500 whose body
carries the correlation id from the `cf-ray` header. -/
theorem claim_C7 (st : CacheState) (v : Str) (nowMs : Int) (tok : Bool)
    (tags : List Str) (pf : Bool) (rid : Str)
    (hrec : st.primary = some ⟨v, none⟩) (hne : v ≠ []) :
    version st nowMs tok tags pf = .error .metadataMissing ∧
    (∀ r, version st nowMs tok tags pf ≠ .ok r) ∧
    handleFetch (some rid) ((version st nowMs tok tags pf).map Prod.fst) =
      ⟨500, serverErrorMessage rid⟩ ∧
    rid <:+: serverErrorMessage rid := by
  have hval : (List.isEmpty v) = false := by
    simpa [List.isEmpty_iff] using hne
  have herr : version st nowMs tok tags pf = .error .metadataMissing := by
    simp [version, cacheHit, hrec, hval]
  refine ⟨herr, by simp [herr], by simp [herr, handleFetch, Except.map], ?_⟩
  exact ⟨str "Server error. Please report this issue with the request ID ",
    str " at https://github.com/deskflow/deskflow-api/issues",
    by simp [serverErrorMessage]⟩

/-- Witness for C7 at a concrete corrupted record and request id. -/
theorem claim_C7_witness :
    version ⟨some ⟨str "1.0", none⟩, none⟩ 42 true [] false =
      .error .metadataMissing ∧
    handleFetch (some (str "ray123"))
        ((version ⟨some ⟨str "1.0", none⟩, none⟩ 42 true [] false).map Prod.fst) =
      ⟨500, serverErrorMessage (str "ray123")⟩ := by
  have h := claim_C7 ⟨some ⟨str "1.0", none⟩, none⟩ (str "1.0") 42 true [] false
    (str "ray123") rfl (by decide)
  exact ⟨h.1, h.2.2.1⟩

/-- C1 counterexample, against the final snapshot: (1) with a miss and a
failing primary put, the failure propagates to the caller as an error
instead of being caught and redirected to the secondary store; (2) with no
primary record but a value "9.9" sitting in the secondary store, the
lookup ignores the secondary store, goes external and serves the
resolver's "1.0". -/
theorem claim_C1_cex :
    version ⟨none, none⟩ 0 true [str "1.2.3"] true = .error .putFailed ∧
    version ⟨none, some (str "9.9")⟩ 0 true [str "v1.0"] false =
      .ok (⟨200, str "1.0"⟩, ⟨some ⟨str "1.0", some 0⟩, some (str "9.9")⟩) :=
  ⟨rfl, rfl⟩

/-- C1 (amended: the described fallback protocol is implemented only in the
earlier snapshot `version_v2`; the final snapshot has no fallback): in the
earlier snapshot a failing primary put is caught, the value is written to
the secondary store and the caller still gets a 200; on a later miss a
non-empty secondary value is served before going external with no TTL
check (an empty stored value is falsy and skipped, by the same truthiness
test). In the final snapshot the put failure propagates as an error, and
the result never depends on — nor changes — the secondary store. -/
theorem claim_C1 (st : CacheState) (nowMs : Int) (tags : List Str) (v s : Str)
    (pf : Bool) :
    (cacheHit cacheAgeSeconds_v2 st nowMs = .ok none → st.secondary = none →
      resolveLatest tags = .found v →
      version_v2 st nowMs tags true = .ok (⟨200, v⟩, { st with secondary := some v })) ∧
    (cacheHit cacheAgeSeconds_v2 st nowMs = .ok none → st.secondary = some s →
      s ≠ [] → version_v2 st nowMs tags pf = .ok (⟨200, s⟩, st)) ∧
    (cacheHit cacheAgeSeconds st nowMs = .ok none → resolveLatest tags = .found v →
      version st nowMs true tags true = .error .putFailed) ∧
    (∀ sec sec' tok, (version ⟨st.primary, sec⟩ nowMs tok tags pf).map
        (fun r => (r.1, r.2.primary)) =
      (version ⟨st.primary, sec'⟩ nowMs tok tags pf).map
        (fun r => (r.1, r.2.primary))) ∧
    (∀ sec tok r, version ⟨st.primary, sec⟩ nowMs tok tags pf = .ok r →
      r.2.secondary = sec) := by
  refine ⟨?_, ?_, ?_, ?_, ?_⟩
  · intro hmiss hsec hres
    simp [version_v2, versionFetch_v2, hmiss, hsec, hres]
  · intro hmiss hsec hne
    have hval : (List.isEmpty s) = false := by simpa [List.isEmpty_iff] using hne
    simp [version_v2, hmiss, hsec, hval]
  · intro hmiss hres
    simp [version, hmiss, hres]
  · intro sec sec' tok
    show (version ⟨st.primary, sec⟩ nowMs tok tags pf).map _ = _
    rw [version, version, cacheHit_secondary_irrel cacheAgeSeconds st.primary sec sec']
    cases hres : cacheHit cacheAgeSeconds ⟨st.primary, sec'⟩ nowMs with
    | error e => rfl
    | ok o =>
      cases o with
      | some v => rfl
      | none =>
        cases tok with
        | false => rfl
        | true =>
          cases resolveLatest tags with
          | noReleases => rfl
          | onlyContinuous => rfl
          | found w => cases pf <;> rfl
  · intro sec tok r hok
    rw [version, cacheHit_secondary_irrel cacheAgeSeconds st.primary sec none] at hok
    cases hres : cacheHit cacheAgeSeconds ⟨st.primary, none⟩ nowMs with
    | error e => rw [hres] at hok; exact absurd hok (by simp)
    | ok o =>
      rw [hres] at hok
      cases o with
      | some v =>
        simp only [Except.ok.injEq] at hok
        subst hok; rfl
      | none =>
        cases tok with
        | false => simp at hok
        | true =>
          simp only [Bool.true_eq_false, if_false] at hok
          cases hres2 : resolveLatest tags with
          | noReleases =>
            rw [hres2] at hok
            simp only [Except.ok.injEq] at hok
            subst hok; rfl
          | onlyContinuous =>
            rw [hres2] at hok
            simp only [Except.ok.injEq] at hok
            subst hok; rfl
          | found w =>
            rw [hres2] at hok
            cases pf with
            | true => simp at hok
            | false =>
              simp only [Bool.false_eq_true, if_false, Except.ok.injEq] at hok
              subst hok; rfl

/-- Witness for C1: concrete earlier-snapshot runs exercising the fallback
write and the secondary read, and a final-snapshot run propagating the
failure. -/
theorem claim_C1_witness :
    version_v2 ⟨none, none⟩ 0 [str "v3.1"] true =
      .ok (⟨200, str "3.1"⟩, ⟨none, some (str "3.1")⟩) ∧
    version_v2 ⟨none, some (str "3.1")⟩ 999999999 [] false =
      .ok (⟨200, str "3.1"⟩, ⟨none, some (str "3.1")⟩) ∧
    version ⟨none, none⟩ 0 true [str "v3.1"] true = .error .putFailed := by
  have h1 := claim_C1 ⟨none, none⟩ 0 [str "v3.1"] (str "3.1") (str "3.1") true
  have h2 := claim_C1 ⟨none, some (str "3.1")⟩ 999999999 [] (str "3.1") (str "3.1") false
  exact ⟨h1.1 rfl rfl (by decide), h2.2.1 rfl rfl (by decide), h1.2.2.1 rfl (by decide)⟩

/-- C6 counterexample: "Deskflow/1.0 (A)" matches the outer structured
pattern but its parenthesized segment has one field, not four; `parse`
returns a silently partial result (os = "A", everything else null)
rather than raising a hard error. -/
theorem claim_C6_cex :
    parseUserAgent (str "Deskflow/1.0 (A)") none none =
      .ok (some ⟨some (str "A"), none, none, none⟩) := rfl

/-- C6 (amended: a structured string whose parenthesized segment does not
decompose into four fields yields a partial `IdentityInfo` with the
missing positions null; `parse` never raises — the invalid-format guard
is unreachable because the pattern test and the decomposition run the
same match). -/
theorem claim_C6 (ua g1 g2 : Str) (lang ver : Option Str)
    (hmark : containsSeq (str "Deskflow") ua = true)
    (hexec : rfc9110Exec ua = some (g1, g2)) :
    parseUserAgent ua lang ver =
      .ok (some ⟨((List.splitOn ';' g2).map trim)[0]?,
        getOsFamily (((List.splitOn ';' g2).map trim)[1]?),
        ((List.splitOn ';' g2).map trim)[3]?,
        ((List.splitOn ';' g2).map trim)[2]?⟩) ∧
    (∀ ua' lang' ver' : _, parseUserAgent ua' lang' ver' ≠ .error .invalidFormat) := by
  constructor
  · simp [parseUserAgent, hmark, hexec]
  · intro ua' lang' ver'
    unfold parseUserAgent
    cases hc : containsSeq (str "Deskflow") ua' with
    | false => simp
    | true =>
      cases he : rfc9110Exec ua' with
      | none => simp [he]
      | some g => simp [he]

/-- Witness for C6 at the concrete partial structured string. -/
theorem claim_C6_witness :
    parseUserAgent (str "Deskflow/1.0 (A)") none none =
      .ok (some ⟨some (str "A"), none, none, none⟩) ∧
    parseUserAgent (str "nothing") none none ≠ .error .invalidFormat := by
  have h := claim_C6 (str "Deskflow/1.0 (A)") (str "1.0") (str "A") none none
    (by decide) (by decide)
  exact ⟨h.1.trans rfl, h.2 (str "nothing") none none⟩

theorem lookupCount_bump_self (m : CountMap) (k : Str) :
    lookupCount (bump m k) k = lookupCount m k + 1 := by
  induction m with
  | nil => simp [bump, lookupCount]
  | cons e rest ih =>
    obtain ⟨k', c⟩ := e
    by_cases h : k' = k
    · simp [bump, lookupCount, h]
    · simp [bump, lookupCount, h, ih]

theorem lookupCount_bump_other (m : CountMap) (k j : Str) (h : j ≠ k) :
    lookupCount (bump m k) j = lookupCount m j := by
  induction m with
  | nil => simp [bump, lookupCount, Ne.symm h]
  | cons e rest ih =>
    obtain ⟨k', c⟩ := e
    by_cases hk : k' = k
    · subst hk
      simp [bump, lookupCount, Ne.symm h]
    · by_cases hj : k' = j
      · subst hj
        simp [bump, lookupCount, h, hk]
      · simp [bump, lookupCount, hk, hj, ih]

theorem bumpField_idle (m : Option CountMap) (v : Option Str)
    (h : v = none ∨ v = some []) : bumpField v m = m := by
  rcases h with h | h <;> simp [bumpField, h]

theorem catCount_bumpField_self (m : Option CountMap) (v : Str) (h : v ≠ []) :
    catCount (bumpField (some v) m) v = catCount m v + 1 := by
  have : (List.isEmpty v) = false := by simpa [List.isEmpty_iff] using h
  simp [bumpField, catCount, this, lookupCount_bump_self]

theorem catCount_bumpField_other (m : Option CountMap) (v k : Str) (h : k ≠ v) :
    catCount (bumpField (some v) m) k = catCount m k := by
  by_cases hv : v = []
  · simp [bumpField, hv]
  · have : (List.isEmpty v) = false := by simpa [List.isEmpty_iff] using hv
    simp [bumpField, catCount, this, lookupCount_bump_other _ _ _ h]

/-- C5 counterexample: the guards of the stats update test JS truthiness,
not nullness. With `os` equal to the empty string — non-null, and
producible by `parse` from e.g. "Deskflow/1.0 (;)" — the claim demands
`os[""]` be created at 1, but the code leaves the `os` mapping absent
(count 0) while still bumping `voteCount`. -/
theorem claim_C5_cex :
    (increment emptyStats ⟨some [], none, none, none⟩).os = none ∧
    catCount (increment emptyStats ⟨some [], none, none, none⟩).os [] = 0 ∧
    votesOf (increment emptyStats ⟨some [], none, none, none⟩) = 1 :=
  ⟨rfl, rfl, rfl⟩

/-- C5 (amended: "non-null" must read "non-null and non-empty", and a null
or empty field leaves its mapping unchanged): one increment adds exactly 1
to `voteCount`; for each truthy field it adds exactly 1 to that value's
count in the corresponding mapping (creating it at 1 when absent) and
leaves every other key of that mapping unchanged; mappings of null or
empty fields are left completely unchanged. -/
theorem claim_C5 (st : Stats) (i : IdentityInfo) (v k : Str) :
    votesOf (increment st i) = votesOf st + 1 ∧
    (i.os = some v → v ≠ [] →
      catCount (increment st i).os v = catCount st.os v + 1 ∧
      (k ≠ v → catCount (increment st i).os k = catCount st.os k)) ∧
    (i.os = none ∨ i.os = some [] → (increment st i).os = st.os) ∧
    (i.osFamily = some v → v ≠ [] →
      catCount (increment st i).osFamily v = catCount st.osFamily v + 1 ∧
      (k ≠ v → catCount (increment st i).osFamily k = catCount st.osFamily k)) ∧
    (i.osFamily = none ∨ i.osFamily = some [] →
      (increment st i).osFamily = st.osFamily) ∧
    (i.appLanguage = some v → v ≠ [] →
      catCount (increment st i).language v = catCount st.language v + 1 ∧
      (k ≠ v → catCount (increment st i).language k = catCount st.language k)) ∧
    (i.appLanguage = none ∨ i.appLanguage = some [] →
      (increment st i).language = st.language) ∧
    (i.appVersion = some v → v ≠ [] →
      catCount (increment st i).version v = catCount st.version v + 1 ∧
      (k ≠ v → catCount (increment st i).version k = catCount st.version k)) ∧
    (i.appVersion = none ∨ i.appVersion = some [] →
      (increment st i).version = st.version) := by
  refine ⟨by simp [increment, votesOf], ?_, ?_, ?_, ?_, ?_, ?_, ?_, ?_⟩ <;>
    first
    | (intro hf hv
       exact ⟨by simp [increment, hf, catCount_bumpField_self _ _ hv],
         fun hk => by simp [increment, hf, catCount_bumpField_other _ _ _ hk]⟩)
    | (intro hf
       simp [increment, bumpField_idle _ _ hf])

/-- Witness for C5 at the spec's worked example: incrementing with
`{os:"Ubuntu", osFamily:"Linux", language:null, version:"1.0"}` raises
those three counts and `voteCount` by 1 and leaves `language` untouched. -/
theorem claim_C5_witness :
    votesOf (increment emptyStats
      ⟨some (str "Ubuntu"), some (str "Linux"), none, some (str "1.0")⟩) = 1 ∧
    catCount (increment emptyStats
      ⟨some (str "Ubuntu"), some (str "Linux"), none, some (str "1.0")⟩).os
      (str "Ubuntu") = 1 ∧
    (increment emptyStats
      ⟨some (str "Ubuntu"), some (str "Linux"), none, some (str "1.0")⟩).language =
      none := by
  have h := claim_C5 emptyStats
    ⟨some (str "Ubuntu"), some (str "Linux"), none, some (str "1.0")⟩
    (str "Ubuntu") (str "x")
  refine ⟨h.1, ?_, h.2.2.2.2.2.2.1 (Or.inl rfl)⟩
  have h2 := (h.2.1 rfl (by decide)).1
  exact h2

theorem hasVoted_append (l : List Vote) (e : Vote) (ua nowIso : Str) :
    hasVoted (l ++ [e]) ua nowIso =
      (hasVoted l ua nowIso ||
        (decide (e.userAgent = ua) && decide (e.isoDateText.take 10 = nowIso.take 10))) := by
  simp [hasVoted, List.any_append]

theorem update_skips (h : ReqHeaders) (ua nowIso : Str) (vs : VoteStore)
    (ss : StatsStore) (info : IdentityInfo) (ip : Str)
    (hua : h.userAgent = some ua) (hne : ua ≠ [])
    (hp : parseUserAgent ua h.language h.version = .ok (some info))
    (ht : anyTruthy info = true)
    (hip : h.ip = some ip) (hipne : ip ≠ [])
    (hv : hasVoted (vs ip) ua nowIso = true) :
    updatePopularityContest h nowIso vs ss = .ok (vs, ss) := by
  have h1 : (List.isEmpty ua) = false := by simpa [List.isEmpty_iff] using hne
  have h2 : (List.isEmpty ip) = false := by simpa [List.isEmpty_iff] using hipne
  simp [updatePopularityContest, hua, h1, hp, ht, hip, h2, hv]

theorem update_records (h : ReqHeaders) (ua nowIso : Str) (vs : VoteStore)
    (ss : StatsStore) (info : IdentityInfo) (ip : Str)
    (hua : h.userAgent = some ua) (hne : ua ≠ [])
    (hp : parseUserAgent ua h.language h.version = .ok (some info))
    (ht : anyTruthy info = true)
    (hip : h.ip = some ip) (hipne : ip ≠ [])
    (hv : hasVoted (vs ip) ua nowIso = false) :
    updatePopularityContest h nowIso vs ss =
      .ok (Function.update vs ip (vs ip ++ [⟨nowIso, ua⟩]),
        Function.update ss (nowIso.take 7)
          (increment (ss (nowIso.take 7)) info)) := by
  have h1 : (List.isEmpty ua) = false := by simpa [List.isEmpty_iff] using hne
  have h2 : (List.isEmpty ip) = false := by simpa [List.isEmpty_iff] using hipne
  simp [updatePopularityContest, hua, h1, hp, ht, hip, h2, hv]

/-- C2: with a usable identity and a requester key that has not voted
today: (1) the first invocation records a vote and bumps the month's
`voteCount` by one; (2) a second invocation with the same key and the
same verbatim identity string on the same date changes nothing; (3) an
invocation with a different identity string from the same key on the same
date counts separately (total +2); (4) an invocation with the same key
and identity on a different calendar date counts again. -/
theorem claim_C2 (hd hd2 : ReqHeaders) (ua ua2 nowIso nowIso2 ip : Str)
    (vs : VoteStore) (ss : StatsStore) (info info2 : IdentityInfo)
    (hua : hd.userAgent = some ua) (hune : ua ≠ [])
    (hip : hd.ip = some ip) (hipne : ip ≠ [])
    (hp : parseUserAgent ua hd.language hd.version = .ok (some info))
    (ht : anyTruthy info = true)
    (hfresh : hasVoted (vs ip) ua nowIso = false)
    (hua2 : hd2.userAgent = some ua2) (hune2 : ua2 ≠ [])
    (hip2 : hd2.ip = some ip)
    (hp2 : parseUserAgent ua2 hd2.language hd2.version = .ok (some info2))
    (ht2 : anyTruthy info2 = true)
    (hdiff : ua2 ≠ ua)
    (hfresh2 : hasVoted (vs ip) ua2 nowIso = false)
    (hday : nowIso2.take 10 ≠ nowIso.take 10)
    (hfresh3 : hasVoted (vs ip) ua nowIso2 = false) :
    ∃ vs1 ss1,
      updatePopularityContest hd nowIso vs ss = .ok (vs1, ss1) ∧
      votesOf (ss1 (nowIso.take 7)) = votesOf (ss (nowIso.take 7)) + 1 ∧
      updatePopularityContest hd nowIso vs1 ss1 = .ok (vs1, ss1) ∧
      (∃ vs2 ss2, updatePopularityContest hd2 nowIso vs1 ss1 = .ok (vs2, ss2) ∧
        votesOf (ss2 (nowIso.take 7)) = votesOf (ss (nowIso.take 7)) + 2) ∧
      (∃ vs3 ss3, updatePopularityContest hd nowIso2 vs1 ss1 = .ok (vs3, ss3) ∧
        votesOf (ss3 (nowIso2.take 7)) = votesOf (ss1 (nowIso2.take 7)) + 1) := by
  refine ⟨Function.update vs ip (vs ip ++ [⟨nowIso, ua⟩]),
    Function.update ss (nowIso.take 7) (increment (ss (nowIso.take 7)) info),
    update_records hd ua nowIso vs ss info ip hua hune hp ht hip hipne hfresh,
    ?_, ?_, ?_, ?_⟩
  · simp [Function.update_same, votesOf, increment]
  · apply update_skips hd ua nowIso _ _ info ip hua hune hp ht hip hipne
    simp [Function.update_same, hasVoted_append, hfresh]
  · refine ⟨_, _, update_records hd2 ua2 nowIso _ _ info2 ip hua2 hune2 hp2 ht2
      hip2 hipne ?_, ?_⟩
    · simp [Function.update_same, hasVoted_append, hfresh2, Ne.symm hdiff]
    · simp [Function.update_same, votesOf, increment]
  · refine ⟨_, _, update_records hd ua nowIso2 _ _ info ip hua hune hp ht hip hipne
      ?_, ?_⟩
    · simp [Function.update_same, hasVoted_append, hfresh3, Ne.symm hday]
    · simp [Function.update_same, votesOf, increment]

/-- Witness for C2: a first vote from a fresh ledger is recorded and a
repeat with the identical identity string on the same date is a no-op. -/
theorem claim_C2_witness :
    ∃ vs1 ss1,
      updatePopularityContest
          ⟨some (str "Deskflow/1.17.0 (Windows 11; Windows; x64; en)"), none, none,
            some (str "203.0.113.7")⟩
          (str "2025-10-11T10:00:00.000Z") (fun _ => []) (fun _ => emptyStats) =
        .ok (vs1, ss1) ∧
      votesOf (ss1 (str "2025-10")) = 1 ∧
      updatePopularityContest
          ⟨some (str "Deskflow/1.17.0 (Windows 11; Windows; x64; en)"), none, none,
            some (str "203.0.113.7")⟩
          (str "2025-10-11T10:00:00.000Z") vs1 ss1 = .ok (vs1, ss1) := by
  obtain ⟨vs1, ss1, h1, h2, h3, -, -⟩ :=
    claim_C2
      ⟨some (str "Deskflow/1.17.0 (Windows 11; Windows; x64; en)"), none, none,
        some (str "203.0.113.7")⟩
      ⟨some (str "Deskflow/1.17.0 (macOS 15; macOS; arm64; fr)"), none, none,
        some (str "203.0.113.7")⟩
      (str "Deskflow/1.17.0 (Windows 11; Windows; x64; en)")
      (str "Deskflow/1.17.0 (macOS 15; macOS; arm64; fr)")
      (str "2025-10-11T10:00:00.000Z") (str "2025-10-12T09:00:00.000Z")
      (str "203.0.113.7") (fun _ => []) (fun _ => emptyStats)
      ⟨some (str "Windows 11"), some (str "Windows"), some (str "en"), some (str "x64")⟩
      ⟨some (str "macOS 15"), some (str "macOS"), some (str "fr"), some (str "arm64")⟩
      rfl (by decide) rfl (by decide) rfl (by decide) rfl
      rfl (by decide) rfl rfl (by decide) (by decide) rfl (by decide) rfl
  exact ⟨vs1, ss1, h1, h2, h3⟩

/-- C10: an identity string containing the marker but matching neither
pattern, with both auxiliary headers absent, parses to the all-null
`IdentityInfo`, and the vote-and-stats update returns successfully
leaving any vote-ledger state and any stats state untouched (the result
is the input stores, for every pair of stores). -/
theorem claim_C10 (hd : ReqHeaders) (ua nowIso : Str)
    (hua : hd.userAgent = some ua) (hne : ua ≠ [])
    (hmark : containsSeq (str "Deskflow") ua = true)
    (hrfc : rfc9110Exec ua = none)
    (hleg : legacyExec ua = none)
    (hlang : hd.language = none) (hver : hd.version = none) :
    parseUserAgent ua hd.language hd.version = .ok (some ⟨none, none, none, none⟩) ∧
    ∀ vs : VoteStore, ∀ ss : StatsStore,
      updatePopularityContest hd nowIso vs ss = .ok (vs, ss) := by
  have h1 : (List.isEmpty ua) = false := by simpa [List.isEmpty_iff] using hne
  have hp : parseUserAgent ua hd.language hd.version =
      .ok (some ⟨none, none, none, none⟩) := by
    simp [parseUserAgent, hmark, hrfc, hleg, hlang, hver, getOsFamily]
  refine ⟨hp, fun vs ss => ?_⟩
  simp [updatePopularityContest, hua, h1, hp, anyTruthy, truthy]

/-- Witness for C10 at the bare marker string "Deskflow". -/
theorem claim_C10_witness :
    updatePopularityContest ⟨some (str "Deskflow"), none, none, none⟩
        (str "2025-10-11T10:00:00.000Z") (fun _ => []) (fun _ => emptyStats) =
      .ok (fun _ => [], fun _ => emptyStats) :=
  (claim_C10 ⟨some (str "Deskflow"), none, none, none⟩ (str "Deskflow")
    (str "2025-10-11T10:00:00.000Z") rfl (by decide) (by decide) (by decide)
    (by decide) rfl rfl).2 (fun _ => []) (fun _ => emptyStats)

theorem insertDesc_perm (x : Str × Nat) (l : CountMap) :
    (insertDesc x l).Perm (x :: l) := by
  induction l with
  | nil => simp [insertDesc]
  | cons y ys ih =>
    by_cases h : y.2 > x.2
    · simpa [insertDesc, h] using (ih.cons y).trans (List.Perm.swap x y ys)
    · simp [insertDesc, h]

theorem sortByValueDesc_perm (m : CountMap) : (sortByValueDesc m).Perm m := by
  induction m with
  | nil => simp [sortByValueDesc]
  | cons x xs ih =>
    exact (insertDesc_perm x (sortByValueDesc xs)).trans (ih.cons x)

theorem insertDesc_sorted (x : Str × Nat) (l : CountMap)
    (h : l.Pairwise (fun a b => b.2 ≤ a.2)) :
    (insertDesc x l).Pairwise (fun a b => b.2 ≤ a.2) := by
  induction l with
  | nil => simp [insertDesc]
  | cons y ys ih =>
    rw [List.pairwise_cons] at h
    by_cases hc : y.2 > x.2
    · simp only [insertDesc, hc, if_true]
      rw [List.pairwise_cons]
      refine ⟨fun z hz => ?_, ih h.2⟩
      rcases List.mem_cons.mp ((insertDesc_perm x ys).mem_iff.mp hz) with rfl | hmem
      · exact le_of_lt hc
      · exact h.1 z hmem
    · simp only [insertDesc, hc, if_false]
      rw [List.pairwise_cons]
      refine ⟨fun z hz => ?_, List.pairwise_cons.mpr h⟩
      rcases List.mem_cons.mp hz with rfl | hmem
      · exact le_of_not_lt hc
      · exact le_trans (h.1 z hmem) (le_of_not_lt hc)

theorem sortByValueDesc_sorted (m : CountMap) :
    (sortByValueDesc m).Pairwise (fun a b => b.2 ≤ a.2) := by
  induction m with
  | nil => simp [sortByValueDesc]
  | cons x xs ih => exact insertDesc_sorted x (sortByValueDesc xs) ih

theorem insertDesc_filter (x : Str × Nat) (l : CountMap) (n : Nat) :
    (insertDesc x l).filter (fun e => decide (e.2 = n)) =
      if x.2 = n then x :: l.filter (fun e => decide (e.2 = n))
      else l.filter (fun e => decide (e.2 = n)) := by
  induction l with
  | nil => by_cases hx : x.2 = n <;> simp [insertDesc, hx]
  | cons y ys ih =>
    by_cases hc : y.2 > x.2
    · rw [show insertDesc x (y :: ys) = y :: insertDesc x ys from by
        simp [insertDesc, hc]]
      by_cases hx : x.2 = n
      · have hy : ¬ y.2 = n := by omega
        simp [List.filter_cons, hy, ih, hx]
      · simp [List.filter_cons, ih, hx]
    · rw [show insertDesc x (y :: ys) = x :: y :: ys from by simp [insertDesc, hc]]
      by_cases hx : x.2 = n <;> simp [List.filter_cons, hx]

theorem sortByValueDesc_stable (m : CountMap) (n : Nat) :
    (sortByValueDesc m).filter (fun e => decide (e.2 = n)) =
      m.filter (fun e => decide (e.2 = n)) := by
  induction m with
  | nil => rfl
  | cons x xs ih =>
    rw [sortByValueDesc, insertDesc_filter]
    by_cases hx : x.2 = n <;> simp [hx, ih, List.filter_cons]

/-- C8: the sorted read view: each category is a permutation of the stored
mapping, ordered by descending count, deterministically and stably — the
entries of any fixed count appear in their original relative order — and
on `os = {A:3, B:5, C:5}` the entries B and C (count 5) come before A. -/
theorem claim_C8 (m : CountMap) (n : Nat) (s : Stats) :
    (sortByValueDesc m).Perm m ∧
    (sortByValueDesc m).Pairwise (fun a b => b.2 ≤ a.2) ∧
    (sortByValueDesc m).filter (fun e => decide (e.2 = n)) =
      m.filter (fun e => decide (e.2 = n)) ∧
    (getSortedStats s).os = some (sortByValueDesc (s.os.getD [])) ∧
    sortByValueDesc [(str "A", 3), (str "B", 5), (str "C", 5)] =
      [(str "B", 5), (str "C", 5), (str "A", 3)] :=
  ⟨sortByValueDesc_perm m, sortByValueDesc_sorted m, sortByValueDesc_stable m n,
    rfl, by decide⟩
